import Mathlib

/-!
Verification development for the openclaw-mcp repository.

The TypeScript sources are shallowly embedded in Lean:

* JavaScript `Map` objects (which iterate in insertion order, update
  entries in place, and delete single entries) are modelled as
  insertion-ordered association lists `List (Nat × α)`.
* Wall-clock time (`Date.now()`, `new Date()`) is threaded through every
  operation as an explicit `now : Nat` argument (milliseconds).
* Task identifiers of the form `task_<timestamp36>_<counter36>` are
  injective in the internal counter, so they are modelled by the counter
  value itself (a `Nat`); likewise the unguessable random code and token
  strings of the OAuth provider are modelled by fresh `Nat` values.
* Exceptions are modelled with `Except`, and `undefined`/optional values
  with `Option`.
-/

namespace OpenClaw

/-! ## Insertion-ordered association lists (the model of a JS Map) -/

/-- Lookup of the first entry with the given key (JS `Map.get`). -/
def lookupKV {α : Type} : List (Nat × α) → Nat → Option α
  | [], _ => none
  | (k, v) :: rest, key => if k = key then some v else lookupKV rest key

/-- In-place replacement of the entry for a present key (JS `Map.set` on an
existing key keeps the entry position; keys are unique in every state the
program builds). -/
def setKV {α : Type} : List (Nat × α) → Nat → α → List (Nat × α)
  | [], _, _ => []
  | (k, w) :: rest, key, v =>
    if k = key then (key, v) :: setKV rest key v else (k, w) :: setKV rest key v

/-- Removal of the entries with the given key (JS `Map.delete`). -/
def eraseKV {α : Type} (l : List (Nat × α)) (key : Nat) : List (Nat × α) :=
  l.filter (fun p => decide (p.1 ≠ key))

theorem lookupKV_append {α : Type} (l₁ l₂ : List (Nat × α)) (key : Nat) :
    lookupKV (l₁ ++ l₂) key =
      match lookupKV l₁ key with
      | some v => some v
      | none => lookupKV l₂ key := by
  induction l₁ with
  | nil => simp [lookupKV]
  | cons p rest ih =>
    obtain ⟨k, v⟩ := p
    by_cases h : k = key <;> simp [lookupKV, h, ih]

theorem lookupKV_eraseKV_self {α : Type} (l : List (Nat × α)) (key : Nat) :
    lookupKV (eraseKV l key) key = none := by
  induction l with
  | nil => simp [eraseKV, lookupKV]
  | cons p rest ih =>
    obtain ⟨k, v⟩ := p
    by_cases h : k = key
    · simpa [eraseKV, List.filter_cons, h] using ih
    · simpa [eraseKV, List.filter_cons, h, lookupKV] using ih

theorem lookupKV_filter_none {α : Type} (l : List (Nat × α)) (p : Nat × α → Bool) (key : Nat)
    (h : lookupKV l key = none) : lookupKV (l.filter p) key = none := by
  induction l with
  | nil => simp [lookupKV]
  | cons q rest ih =>
    obtain ⟨k, v⟩ := q
    by_cases hk : k = key
    · simp [lookupKV, hk] at h
    · simp only [lookupKV, hk, ite_false] at h
      by_cases hp : p (k, v) <;> simp [List.filter_cons, hp, lookupKV, hk, ih h]

theorem lookupKV_setKV_found {α : Type} (l : List (Nat × α)) (key : Nat) (t v : α)
    (h : lookupKV l key = some t) : lookupKV (setKV l key v) key = some v := by
  induction l with
  | nil => simp [lookupKV] at h
  | cons p rest ih =>
    obtain ⟨k, w⟩ := p
    by_cases hk : k = key
    · simp [setKV, hk, lookupKV]
    · simp only [lookupKV, hk, ite_false] at h
      simp [setKV, hk, lookupKV, ih h]

theorem lookupKV_setKV_ne {α : Type} (l : List (Nat × α)) (key key' : Nat) (v : α)
    (h : key' ≠ key) : lookupKV (setKV l key v) key' = lookupKV l key' := by
  induction l with
  | nil => simp [setKV, lookupKV]
  | cons p rest ih =>
    obtain ⟨k, w⟩ := p
    by_cases hk : k = key
    · have hkey' : key ≠ key' := Ne.symm h
      have hkne : k ≠ key' := by rw [hk]; exact hkey'
      simp [setKV, hk, lookupKV, hkey', hkne, ih]
    · simp [setKV, hk, lookupKV, ih]

theorem lookupKV_not_mem_keys {α : Type} (l : List (Nat × α)) (key : Nat)
    (h : key ∉ l.map Prod.fst) : lookupKV l key = none := by
  induction l with
  | nil => simp [lookupKV]
  | cons p rest ih =>
    obtain ⟨k, v⟩ := p
    simp only [List.map_cons, List.mem_cons, not_or] at h
    have hk : k ≠ key := Ne.symm h.1
    simp only [lookupKV, hk, ite_false]
    exact ih h.2

theorem lookupKV_none_of_key_lt {α : Type} (l : List (Nat × α)) (key : Nat)
    (h : ∀ p ∈ l, p.1 < key) : lookupKV l key = none := by
  induction l with
  | nil => simp [lookupKV]
  | cons p rest ih =>
    obtain ⟨k, v⟩ := p
    have hk : k ≠ key := Nat.ne_of_lt (h (k, v) (List.mem_cons_self _ _))
    simp only [lookupKV, hk, ite_false]
    exact ih (fun q hq => h q (List.mem_cons_of_mem _ hq))

/-- With duplicate-free keys, filtering commutes with lookup: a present entry
survives the filter exactly when the predicate holds of it. -/
theorem lookupKV_filter_nodup {α : Type} (l : List (Nat × α)) (p : Nat × α → Bool) (key : Nat)
    (t : α) (hnd : (l.map Prod.fst).Nodup) (h : lookupKV l key = some t) :
    lookupKV (l.filter p) key = if p (key, t) then some t else none := by
  induction l with
  | nil => simp [lookupKV] at h
  | cons q rest ih =>
    obtain ⟨k, v⟩ := q
    simp only [List.map_cons, List.nodup_cons] at hnd
    by_cases hk : k = key
    · subst hk
      rw [lookupKV, if_pos rfl] at h
      rw [Option.some_inj] at h
      subst h
      have hrest : lookupKV rest k = none := lookupKV_not_mem_keys rest k hnd.1
      by_cases hp : p (k, v)
      · simp [List.filter_cons, hp, lookupKV]
      · simp only [List.filter_cons, hp, Bool.false_eq_true, ite_false]
        simp [lookupKV_filter_none rest p k hrest, hp]
    · simp only [lookupKV, hk, ite_false] at h
      by_cases hp : p (k, v) <;> simp [List.filter_cons, hp, lookupKV, hk, ih hnd.2 h]

/-! ## Task manager (src/src/mcp/tasks/manager.ts) -/

/-- Task status (type `TaskStatus` in manager.ts). -/
inductive TaskStatus
  | pending
  | running
  | completed
  | failed
  | cancelled
deriving DecidableEq, Repr

/-- The terminal statuses, spelled out in `updateStatus` as
`completed || failed || cancelled`. -/
def TaskStatus.isTerminal : TaskStatus → Bool
  | .completed => true
  | .failed => true
  | .cancelled => true
  | _ => false

/-- Task kind (the field `type : chat | custom`). -/
inductive TaskType
  | chat
  | custom
deriving DecidableEq, Repr

/-- The payload the async chat tool stores in `task.input` and `processTask`
reads back (fields `message` and `session_id`). -/
structure ChatInput where
  message : String
  sessionId : Option String
deriving DecidableEq, Repr

/-- Interface `Task` of manager.ts. -/
structure Task where
  id : Nat
  type : TaskType
  status : TaskStatus
  input : ChatInput
  result : Option String
  error : Option String
  createdAt : Nat
  startedAt : Option Nat
  completedAt : Option Nat
  sessionId : Option String
  priority : Int
deriving DecidableEq, Repr

/-- Interface `TaskCreateOptions` of manager.ts. -/
structure TaskCreateOptions where
  type : TaskType
  input : ChatInput
  sessionId : Option String
  priority : Option Int
deriving DecidableEq, Repr

/-- The private state of class `TaskManager`: the task map and the id
counter. -/
structure TaskManager where
  tasks : List (Nat × Task)
  taskCounter : Nat
deriving DecidableEq, Repr

def MAX_TASKS : Nat := 1000

def TaskManager.empty : TaskManager := ⟨[], 0⟩

def capacityMsg : String :=
  "Task limit reached (" ++ toString MAX_TASKS ++
    "). Wait for tasks to complete or cancel pending ones."

/-- `TaskManager.create`: throws when the map already holds `MAX_TASKS`
entries, otherwise increments the counter (`generateId`), stores a fresh
pending task at the end of the map and returns it. -/
def TaskManager.create (m : TaskManager) (options : TaskCreateOptions) (now : Nat) :
    Except String (Task × TaskManager) :=
  if m.tasks.length ≥ MAX_TASKS then
    .error capacityMsg
  else
    let id := m.taskCounter + 1
    let task : Task :=
      { id := id
        type := options.type
        status := .pending
        input := options.input
        result := none
        error := none
        createdAt := now
        startedAt := none
        completedAt := none
        sessionId := options.sessionId
        priority := options.priority.getD 0 }
    .ok (task, { tasks := m.tasks ++ [(id, task)], taskCounter := id })

/-- `TaskManager.get`. -/
def TaskManager.get (m : TaskManager) (id : Nat) : Option Task :=
  lookupKV m.tasks id

/-- The optional filter taken by `TaskManager.list`. -/
structure TaskFilter where
  status : Option TaskStatus
  sessionId : Option String
deriving DecidableEq, Repr

/-- The comparator passed to `Array.sort` in `TaskManager.list`, read as the
non-strict order it sorts by: `a` may come before `b` when
`b.priority - a.priority` is negative, or is zero with
`a.createdAt - b.createdAt` non-positive. -/
def taskLE (a b : Task) : Bool :=
  decide (b.priority < a.priority) ||
    (decide (a.priority = b.priority) && decide (a.createdAt ≤ b.createdAt))

/-- `TaskManager.list`: snapshot of the map values in insertion order,
filtered by status and session when given, then stably sorted by priority
descending with creation time ascending as tie break (V8 `Array.sort` is
stable, as is `List.mergeSort`). -/
def TaskManager.list (m : TaskManager) (filter : TaskFilter) : List Task :=
  let ts : List Task := m.tasks.map Prod.snd
  let ts : List Task := match filter.status with
    | some st => ts.filter (fun (t : Task) => decide (t.status = st))
    | none => ts
  let ts : List Task := match filter.sessionId with
    | some sid => ts.filter (fun (t : Task) => decide (t.sessionId = some sid))
    | none => ts
  ts.mergeSort taskLE

/-- The record mutation performed by `TaskManager.updateStatus` on a found
task: status overwritten, `startedAt` set on first entry to running,
`completedAt` set on entry to a terminal status, `result`/`error`
overwritten only when provided. -/
def applyUpdate (t : Task) (status : TaskStatus) (result error : Option String)
    (now : Nat) : Task :=
  let t1 := { t with status := status }
  let t2 :=
    if status = .running ∧ t1.startedAt = none then { t1 with startedAt := some now } else t1
  let t3 := if status.isTerminal then { t2 with completedAt := some now } else t2
  let t4 := match result with
    | some r => { t3 with result := some r }
    | none => t3
  let t5 := match error with
    | some e => { t4 with error := some e }
    | none => t4
  t5

/-- `TaskManager.updateStatus`: false without mutation for an unknown id,
otherwise applies `applyUpdate` to the stored record. -/
def TaskManager.updateStatus (m : TaskManager) (id : Nat) (status : TaskStatus)
    (result error : Option String) (now : Nat) : Bool × TaskManager :=
  match lookupKV m.tasks id with
  | none => (false, m)
  | some t =>
    (true, { m with tasks := setKV m.tasks id (applyUpdate t status result error now) })

/-- `TaskManager.cancel`: false for an unknown id, false without mutation for
a task not in pending, otherwise transitions the task to cancelled and stamps
`completedAt`. -/
def TaskManager.cancel (m : TaskManager) (id : Nat) (now : Nat) : Bool × TaskManager :=
  match lookupKV m.tasks id with
  | none => (false, m)
  | some t =>
    if t.status ≠ .pending then
      (false, m)
    else
      (true,
        { m with
            tasks := setKV m.tasks id { t with status := .cancelled, completedAt := some now } })

/-- `TaskManager.delete` (named `deleteTask` here; `delete` is reserved
by the `Membership` namespace conventions). -/
def TaskManager.deleteTask (m : TaskManager) (id : Nat) : Bool × TaskManager :=
  ((lookupKV m.tasks id).isSome, { m with tasks := eraseKV m.tasks id })

/-- `TaskManager.getNextPending`: the head of the pending-filtered list; a
read-only observer, the store is not touched. -/
def TaskManager.getNextPending (m : TaskManager) : Option Task :=
  (m.list ⟨some .pending, none⟩).head?

/-- The removal test of `TaskManager.cleanup`: the task has a `completedAt`
stamp and `now - completedAt > maxAgeMs` (the status is not consulted). -/
def cleanupExpired (maxAgeMs now : Nat) (t : Task) : Bool :=
  match t.completedAt with
  | some c => decide (now - c > maxAgeMs)
  | none => false

/-- `TaskManager.cleanup`: deletes every entry whose `cleanupExpired` test
holds while iterating the map, and returns how many were removed. -/
def TaskManager.cleanup (m : TaskManager) (maxAgeMs now : Nat) : Nat × TaskManager :=
  ((m.tasks.filter (fun p => cleanupExpired maxAgeMs now p.2)).length,
    { m with tasks := m.tasks.filter (fun p => ! cleanupExpired maxAgeMs now p.2) })

/-- Duplicate-free keys: every state the program reaches has this, because
fresh ids come from the strictly increasing counter. -/
def TaskManager.WFKeys (m : TaskManager) : Prop :=
  (m.tasks.map Prod.fst).Nodup

/-! ## Tool responses (src/src/utils/response-helpers.ts, visible through its
test suite) and the task tool handlers (src/src/mcp/tools/tasks.ts) -/

/-- One `content` entry of a tool response. -/
structure TextContent where
  type : String
  text : String
deriving DecidableEq, Repr

/-- The `ToolResponse` shape: a single text content entry, and `isError`
which is absent on success and `true` on error. -/
structure ToolResponse where
  content : List TextContent
  isError : Option Bool
deriving DecidableEq, Repr

def successResponse (text : String) : ToolResponse :=
  ⟨[⟨"text", text⟩], none⟩

/-- `errorResponse` prefixes the message with `Error: ` and sets `isError`. -/
def errorResponse (message : String) : ToolResponse :=
  ⟨[⟨"text", "Error: " ++ message⟩], some true⟩

/-- Rendering of a status value into the text `${task.status}`
interpolates. -/
def statusText : TaskStatus → String
  | .pending => "pending"
  | .running => "running"
  | .completed => "completed"
  | .failed => "failed"
  | .cancelled => "cancelled"

/-- The task id string interpolated into handler messages (the `task_...`
form, keyed by the numeric counter in this model). -/
def idString (id : Nat) : String :=
  "task_" ++ toString id

/-- The `JSON.stringify(.., null, 2)` payload of a successful cancel. -/
def cancelSuccessText (id : Nat) : String :=
  "\x7b\n  \"task_id\": \"" ++ idString id ++
    "\",\n  \"status\": \"cancelled\",\n  \"message\": \"Task cancelled successfully\"\n\x7d"

/-- `handleOpenclawTaskCancel` after input validation: get the task (absent
id gives a not-found error), refuse a non-pending task (rejected error,
no mutation), otherwise cancel through the manager. -/
def handleOpenclawTaskCancel (m : TaskManager) (id : Nat) (now : Nat) :
    ToolResponse × TaskManager :=
  match m.get id with
  | none => (errorResponse ("Task not found: " ++ idString id), m)
  | some task =>
    if task.status ≠ .pending then
      (errorResponse
        ("Cannot cancel task with status: " ++ statusText task.status ++
          ". Only pending tasks can be cancelled."), m)
    else
      match m.cancel id now with
      | (false, m') => (errorResponse ("Failed to cancel task"), m')
      | (true, m') => (successResponse (cancelSuccessText id), m')

/-- `processTask` of the worker loop: mark the task running, dispatch by
kind, and record the outcome. The gateway call `client.chat` is a parameter
returning `Except` — an `Except.error` is a thrown exception, which the
`try/catch` of the source converts into a failed status carrying the error
message. The Lean function is total: no input makes it propagate a
failure. -/
def processTask (chat : String → Option String → Except String String)
    (task : Task) (m : TaskManager) (now : Nat) : TaskManager :=
  let m1 := (m.updateStatus task.id .running none none now).2
  match task.type with
  | .chat =>
    match chat task.input.message task.input.sessionId with
    | .ok response => (m1.updateStatus task.id .completed (some response) none now).2
    | .error msg => (m1.updateStatus task.id .failed none (some msg) now).2
  | .custom => (m1.updateStatus task.id .failed none (some ("Unknown task type")) now).2

/-! ## Legacy OAuth validator (src/unnamed/part_009, class `OAuthValidator`) -/

/-- Interface `OAuthConfig` of the validator module. -/
structure OAuthConfig where
  enabled : Bool
  issuer : Option String
  introspectionEndpoint : Option String
  clientId : Option String
  clientSecret : Option String
  requiredScopes : Option (List String)
  apiKeys : Option (List String)
deriving DecidableEq, Repr

/-- Interface `TokenInfo` of the validator module. -/
structure TokenInfo where
  active : Bool
  sub : Option String
  scope : Option String
  exp : Option Nat
  clientId : Option String
deriving DecidableEq, Repr

/-- The result shape of `validateToken`. -/
structure ValidationResult where
  valid : Bool
  info : Option TokenInfo
  error : Option String
deriving DecidableEq, Repr

/-- `OAuthValidator.validateToken`. The network call `introspectToken` is a
parameter: `Except.error` models a thrown fetch or non-ok response. `nowSec`
is `Date.now() / 1000`. A JS truthiness test guards the expiry comparison,
so `exp = 0` is never treated as expired. -/
def OAuthValidator.validateToken (config : OAuthConfig)
    (introspectToken : String → Except String TokenInfo)
    (token : String) (nowSec : Nat) : ValidationResult :=
  if config.enabled = false then
    ⟨true, none, none⟩
  else if (config.apiKeys.getD []).contains token then
    ⟨true, some ⟨true, some ("api-key-user"), some ("full"), none, none⟩, none⟩
  else
    match config.introspectionEndpoint with
    | none => ⟨false, none, some ("No introspection endpoint configured")⟩
    | some _ =>
      match introspectToken token with
      | .error e => ⟨false, none, some ("Token validation failed: " ++ e)⟩
      | .ok response =>
        if response.active = false then
          ⟨false, none, some ("Token is not active")⟩
        else
          let scopesOk : Bool :=
            match config.requiredScopes with
            | some req =>
              if req.length ≠ 0 then
                let tokenScopes := (response.scope.getD ("")).splitOn (" ")
                req.all (fun sc => tokenScopes.contains sc)
              else true
            | none => true
          if scopesOk = false then
            ⟨false, none, some ("Insufficient scopes")⟩
          else
            let expired : Bool :=
              match response.exp with
              | some e => decide (e ≠ 0) && decide (e < nowSec)
              | none => false
            if expired then
              ⟨false, none, some ("Token expired")⟩
            else
              ⟨true, some response, none⟩

/-! ## OAuth authorization server

Modelled from the spec: the module `src/auth/provider.ts`
(`OpenClawAuthProvider`) is not part of the source snapshot; only its test
suite (`src/src/__tests__/auth/oauth.test.ts`) and the specification
describe it. The definitions below follow the spec, section 4.4: codes are
minted fresh and stored with client, challenge, scopes and creation time;
`exchangeAuthorizationCode` deletes the code unconditionally once looked up
and distinguishes an invalid-grant failure from a wrong-client failure;
`exchangeRefreshToken` rotates the presented refresh token. Code and token
identifiers are unguessable random strings in the source; here they are
fresh `Nat` values drawn from a strictly increasing counter `nonce`. -/

def CODE_TTL_MS : Nat := 600000

def ACCESS_TTL_MS : Nat := 3600000

def REFRESH_TTL_MS : Nat := 86400000

/-- Modelled from the spec: a stored authorization code of the missing
provider module — client, redirect, PKCE challenge, scopes, echoed state and
creation time. -/
structure AuthCodeRecord where
  clientId : String
  redirectUri : String
  codeChallenge : String
  scopes : List String
  state : Option String
  createdAt : Nat
deriving DecidableEq, Repr

/-- Modelled from the spec: a stored access or refresh token of the missing
provider module. -/
structure TokenRecord where
  clientId : String
  scopes : List String
  expiresAt : Nat
deriving DecidableEq, Repr

/-- Modelled from the spec: the state of the missing `OpenClawAuthProvider`
— the three stores and the freshness counter. -/
structure ProviderState where
  codes : List (Nat × AuthCodeRecord)
  accessTokens : List (Nat × TokenRecord)
  refreshTokens : List (Nat × TokenRecord)
  nonce : Nat
deriving DecidableEq, Repr

def ProviderState.initial : ProviderState := ⟨[], [], [], 0⟩

/-- The error kinds of the provider: invalid grant (absent or expired code
or refresh token), wrong client (credential issued to another client id),
invalid token (bearer verification failure). -/
inductive OAuthErr
  | invalidGrant (msg : String)
  | wrongClient (msg : String)
  | invalidToken (msg : String)
deriving DecidableEq, Repr

/-- The token bundle returned by the two exchange operations. -/
structure OAuthTokens where
  accessToken : Nat
  refreshToken : Nat
  tokenType : String
  expiresIn : Nat
  scopes : List String
deriving DecidableEq, Repr

/-- The authorize parameters: redirect URI, PKCE challenge, scopes and the
optional state to echo. -/
structure AuthorizeParams where
  redirectUri : String
  codeChallenge : String
  scopes : List String
  state : Option String
deriving DecidableEq, Repr

/-- The redirect produced by authorize: the fresh code and the echoed state
(echoed only when supplied). -/
structure RedirectTarget where
  code : Nat
  state : Option String
deriving DecidableEq, Repr

/-- Modelled from the spec: `authorize` of the missing provider module —
auto-approves by minting a fresh code, storing the request data, and
redirecting with `code` and the echoed `state`. -/
def ProviderState.authorize (s : ProviderState) (client : String)
    (params : AuthorizeParams) (now : Nat) : RedirectTarget × ProviderState :=
  let code := s.nonce
  (⟨code, params.state⟩,
    { s with
        codes := s.codes ++
          [(code, ⟨client, params.redirectUri, params.codeChallenge, params.scopes,
            params.state, now⟩)],
        nonce := s.nonce + 1 })

/-- Modelled from the spec: `challengeForAuthorizationCode` of the missing
provider module — returns the stored challenge, failing with invalid grant
when the code is absent or older than ten minutes (and evicting it on
expiry detection). -/
def ProviderState.challengeForCode (s : ProviderState) (code : Nat) (now : Nat) :
    Except OAuthErr String × ProviderState :=
  match lookupKV s.codes code with
  | none => (.error (.invalidGrant ("Invalid authorization code")), s)
  | some r =>
    if now - r.createdAt > CODE_TTL_MS then
      (.error (.invalidGrant ("Invalid authorization code")),
        { s with codes := eraseKV s.codes code })
    else
      (.ok r.codeChallenge, s)

/-- Modelled from the spec: `exchangeAuthorizationCode` of the missing
provider module — invalid grant when the code is absent or expired; the
code is deleted unconditionally once looked up (single use, also on the
failure paths); a wrong-client failure is a distinct error kind; on success
a fresh access (1 h) and refresh (24 h) token pair is minted with the
scopes recorded at authorize time. -/
def ProviderState.exchangeAuthorizationCode (s : ProviderState) (client : String)
    (code : Nat) (now : Nat) : Except OAuthErr OAuthTokens × ProviderState :=
  match lookupKV s.codes code with
  | none => (.error (.invalidGrant ("Invalid authorization code")), s)
  | some r =>
    let s1 : ProviderState := { s with codes := eraseKV s.codes code }
    if now - r.createdAt > CODE_TTL_MS then
      (.error (.invalidGrant ("Invalid authorization code")), s1)
    else if r.clientId ≠ client then
      (.error (.wrongClient ("Authorization code was not issued to this client")), s1)
    else
      let accessTok := s1.nonce
      let refreshTok := s1.nonce + 1
      (.ok ⟨accessTok, refreshTok, "bearer", 3600, r.scopes⟩,
        { s1 with
            accessTokens := s1.accessTokens ++
              [(accessTok, ⟨client, r.scopes, now + ACCESS_TTL_MS⟩)],
            refreshTokens := s1.refreshTokens ++
              [(refreshTok, ⟨client, r.scopes, now + REFRESH_TTL_MS⟩)],
            nonce := s1.nonce + 2 })

/-- Modelled from the spec: `exchangeRefreshToken` of the missing provider
module — invalid grant when the token is absent or expired, wrong-client
when it belongs to another client; on success the presented token is
deleted and a brand-new access and refresh pair is minted (rotation). The
optional scope-narrowing argument is not modelled; the claims do not touch
it. -/
def ProviderState.exchangeRefreshToken (s : ProviderState) (client : String)
    (token : Nat) (now : Nat) : Except OAuthErr OAuthTokens × ProviderState :=
  match lookupKV s.refreshTokens token with
  | none => (.error (.invalidGrant ("Invalid refresh token")), s)
  | some r =>
    if r.expiresAt ≤ now then
      (.error (.invalidGrant ("Invalid refresh token")), s)
    else if r.clientId ≠ client then
      (.error (.wrongClient ("Refresh token was not issued to this client")), s)
    else
      let accessTok := s.nonce
      let refreshTok := s.nonce + 1
      (.ok ⟨accessTok, refreshTok, "bearer", 3600, r.scopes⟩,
        { s with
            accessTokens := s.accessTokens ++
              [(accessTok, ⟨client, r.scopes, now + ACCESS_TTL_MS⟩)],
            refreshTokens := eraseKV s.refreshTokens token ++
              [(refreshTok, ⟨client, r.scopes, now + REFRESH_TTL_MS⟩)],
            nonce := s.nonce + 2 })

/-- Modelled from the spec: `verifyAccessToken` of the missing provider
module — invalid token when absent or past expiry; a pure read. -/
def ProviderState.verifyAccessToken (s : ProviderState) (token : Nat) (now : Nat) :
    Except OAuthErr TokenRecord :=
  match lookupKV s.accessTokens token with
  | none => .error (.invalidToken ("Invalid or expired token"))
  | some r =>
    if r.expiresAt ≤ now then .error (.invalidToken ("Invalid or expired token"))
    else .ok r

/-- Modelled from the spec: `revokeToken` of the missing provider module —
idempotent deletion from both token stores. -/
def ProviderState.revokeToken (s : ProviderState) (token : Nat) : ProviderState :=
  { s with
      accessTokens := eraseKV s.accessTokens token,
      refreshTokens := eraseKV s.refreshTokens token }

/-- Modelled from the spec: `reapExpired` of the missing provider module —
the periodic sweep removing expired codes and tokens. -/
def ProviderState.reapExpired (s : ProviderState) (now : Nat) : ProviderState :=
  { s with
      codes := s.codes.filter (fun p => ! decide (now - p.2.createdAt > CODE_TTL_MS)),
      accessTokens := s.accessTokens.filter (fun p => decide (now < p.2.expiresAt)),
      refreshTokens := s.refreshTokens.filter (fun p => decide (now < p.2.expiresAt)) }

/-- One provider operation, for quantifying over every later call
sequence. -/
inductive ProviderOp
  | authorizeOp (client : String) (params : AuthorizeParams) (now : Nat)
  | challengeOp (code : Nat) (now : Nat)
  | exchangeCodeOp (client : String) (code : Nat) (now : Nat)
  | exchangeRefreshOp (client : String) (token : Nat) (now : Nat)
  | revokeOp (token : Nat)
  | reapOp (now : Nat)
deriving DecidableEq, Repr

/-- The state reached by one provider operation. -/
def ProviderState.stepOp (s : ProviderState) : ProviderOp → ProviderState
  | .authorizeOp client params now => (s.authorize client params now).2
  | .challengeOp code now => (s.challengeForCode code now).2
  | .exchangeCodeOp client code now => (s.exchangeAuthorizationCode client code now).2
  | .exchangeRefreshOp client token now => (s.exchangeRefreshToken client token now).2
  | .revokeOp token => s.revokeToken token
  | .reapOp now => s.reapExpired now

/-- The state reached by a sequence of provider operations. -/
def ProviderState.runOps (s : ProviderState) : List ProviderOp → ProviderState
  | [] => s
  | op :: rest => (s.stepOp op).runOps rest

/-- Bounded identifiers: every stored code and token key is below the
freshness counter. Every state the provider reaches from `initial` has
this, because keys are only ever drawn from the counter. -/
def ProviderState.BoundedNonce (s : ProviderState) : Prop :=
  (∀ p ∈ s.codes, p.1 < s.nonce) ∧
    (∀ p ∈ s.accessTokens, p.1 < s.nonce) ∧
    ∀ p ∈ s.refreshTokens, p.1 < s.nonce

/-- A consumed authorization code: no longer stored, and below the counter,
so no later mint can reuse it. -/
def ConsumedCode (s : ProviderState) (code : Nat) : Prop :=
  lookupKV s.codes code = none ∧ code < s.nonce

/-- A consumed refresh token: no longer stored, and below the counter. -/
def ConsumedRefresh (s : ProviderState) (token : Nat) : Prop :=
  lookupKV s.refreshTokens token = none ∧ token < s.nonce

theorem consumedCode_step (s : ProviderState) (code : Nat) (op : ProviderOp)
    (h : ConsumedCode s code) : ConsumedCode (s.stepOp op) code := by
  obtain ⟨hl, hn⟩ := h
  cases op with
  | authorizeOp client params now =>
    refine ⟨?_, Nat.lt_succ_of_lt hn⟩
    simp only [ProviderState.stepOp, ProviderState.authorize, lookupKV_append, hl]
    simp [lookupKV, Nat.ne_of_gt hn]
  | challengeOp c now =>
    simp only [ProviderState.stepOp, ProviderState.challengeForCode]
    cases hc : lookupKV s.codes c with
    | none => exact ⟨hl, hn⟩
    | some r =>
      by_cases hexp : now - r.createdAt > CODE_TTL_MS
      · simp only [hexp, if_pos]
        exact ⟨lookupKV_filter_none _ _ _ hl, hn⟩
      · simp only [hexp, if_neg, ite_false]
        exact ⟨hl, hn⟩
  | exchangeCodeOp client c now =>
    simp only [ProviderState.stepOp, ProviderState.exchangeAuthorizationCode]
    cases hc : lookupKV s.codes c with
    | none => exact ⟨hl, hn⟩
    | some r =>
      have herase : lookupKV (eraseKV s.codes c) code = none :=
        lookupKV_filter_none _ _ _ hl
      by_cases hexp : now - r.createdAt > CODE_TTL_MS
      · simp only [hexp, if_pos]
        exact ⟨herase, hn⟩
      · simp only [if_neg hexp]
        by_cases hcl : r.clientId ≠ client
        · simp only [if_pos hcl]
          exact ⟨herase, hn⟩
        · simp only [if_neg hcl]
          exact ⟨herase, Nat.lt_add_right 2 hn⟩
  | exchangeRefreshOp client tok now =>
    simp only [ProviderState.stepOp, ProviderState.exchangeRefreshToken]
    cases hc : lookupKV s.refreshTokens tok with
    | none => exact ⟨hl, hn⟩
    | some r =>
      by_cases hexp : r.expiresAt ≤ now
      · simp only [hexp, if_pos]
        exact ⟨hl, hn⟩
      · simp only [if_neg hexp]
        by_cases hcl : r.clientId ≠ client
        · simp only [if_pos hcl]
          exact ⟨hl, hn⟩
        · simp only [if_neg hcl]
          exact ⟨hl, Nat.lt_add_right 2 hn⟩
  | revokeOp tok =>
    exact ⟨hl, hn⟩
  | reapOp now =>
    exact ⟨lookupKV_filter_none _ _ _ hl, hn⟩

theorem consumedCode_runOps (s : ProviderState) (code : Nat) (ops : List ProviderOp)
    (h : ConsumedCode s code) : ConsumedCode (s.runOps ops) code := by
  induction ops generalizing s with
  | nil => exact h
  | cons op rest ih => exact ih _ (consumedCode_step s code op h)

theorem consumedRefresh_step (s : ProviderState) (token : Nat) (op : ProviderOp)
    (h : ConsumedRefresh s token) : ConsumedRefresh (s.stepOp op) token := by
  obtain ⟨hl, hn⟩ := h
  cases op with
  | authorizeOp client params now =>
    exact ⟨hl, Nat.lt_succ_of_lt hn⟩
  | challengeOp c now =>
    simp only [ProviderState.stepOp, ProviderState.challengeForCode]
    cases hc : lookupKV s.codes c with
    | none => exact ⟨hl, hn⟩
    | some r =>
      by_cases hexp : now - r.createdAt > CODE_TTL_MS
      · simp only [hexp, if_pos]
        exact ⟨hl, hn⟩
      · simp only [hexp, if_neg, ite_false]
        exact ⟨hl, hn⟩
  | exchangeCodeOp client c now =>
    simp only [ProviderState.stepOp, ProviderState.exchangeAuthorizationCode]
    cases hc : lookupKV s.codes c with
    | none => exact ⟨hl, hn⟩
    | some r =>
      by_cases hexp : now - r.createdAt > CODE_TTL_MS
      · simp only [hexp, if_pos]
        exact ⟨hl, hn⟩
      · simp only [if_neg hexp]
        by_cases hcl : r.clientId ≠ client
        · simp only [if_pos hcl]
          exact ⟨hl, hn⟩
        · simp only [if_neg hcl]
          refine ⟨?_, Nat.lt_add_right 2 hn⟩
          simp only [lookupKV_append, hl]
          have h1 : s.nonce + 1 ≠ token := by omega
          simp [lookupKV, h1]
  | exchangeRefreshOp client tok now =>
    simp only [ProviderState.stepOp, ProviderState.exchangeRefreshToken]
    cases hc : lookupKV s.refreshTokens tok with
    | none => exact ⟨hl, hn⟩
    | some r =>
      by_cases hexp : r.expiresAt ≤ now
      · simp only [hexp, if_pos]
        exact ⟨hl, hn⟩
      · simp only [if_neg hexp]
        by_cases hcl : r.clientId ≠ client
        · simp only [if_pos hcl]
          exact ⟨hl, hn⟩
        · simp only [if_neg hcl]
          refine ⟨?_, Nat.lt_add_right 2 hn⟩
          have herase : lookupKV (eraseKV s.refreshTokens tok) token = none :=
            lookupKV_filter_none _ _ _ hl
          simp only [lookupKV_append, herase]
          have h1 : s.nonce + 1 ≠ token := by omega
          simp [lookupKV, h1]
  | revokeOp tok =>
    exact ⟨lookupKV_filter_none _ _ _ hl, hn⟩
  | reapOp now =>
    exact ⟨lookupKV_filter_none _ _ _ hl, hn⟩

theorem consumedRefresh_runOps (s : ProviderState) (token : Nat) (ops : List ProviderOp)
    (h : ConsumedRefresh s token) : ConsumedRefresh (s.runOps ops) token := by
  induction ops generalizing s with
  | nil => exact h
  | cons op rest ih => exact ih _ (consumedRefresh_step s token op h)

/-- An exchange of a consumed code fails with invalid grant and does not
change the state. -/
theorem exchangeCode_consumed (s : ProviderState) (client : String) (code : Nat) (now : Nat)
    (h : lookupKV s.codes code = none) :
    s.exchangeAuthorizationCode client code now =
      (.error (.invalidGrant ("Invalid authorization code")), s) := by
  simp [ProviderState.exchangeAuthorizationCode, h]

/-- An exchange of a consumed refresh token fails with invalid grant and
does not change the state. -/
theorem exchangeRefresh_consumed (s : ProviderState) (client : String) (token : Nat)
    (now : Nat) (h : lookupKV s.refreshTokens token = none) :
    s.exchangeRefreshToken client token now =
      (.error (.invalidGrant ("Invalid refresh token")), s) := by
  simp [ProviderState.exchangeRefreshToken, h]

/-! ## Further helper lemmas -/

theorem lookupKV_mem {α : Type} (l : List (Nat × α)) (k : Nat) (v : α)
    (h : lookupKV l k = some v) : (k, v) ∈ l := by
  induction l with
  | nil => simp [lookupKV] at h
  | cons p rest ih =>
    obtain ⟨k', w⟩ := p
    by_cases hk : k' = k
    · subst hk
      rw [lookupKV, if_pos rfl, Option.some_inj] at h
      subst h
      exact List.mem_cons_self _ _
    · simp only [lookupKV, hk, ite_false] at h
      exact List.mem_cons_of_mem _ (ih h)

/-- Field-by-field description of `applyUpdate`. -/
theorem applyUpdate_fields (t : Task) (status : TaskStatus) (result error : Option String)
    (now : Nat) :
    (applyUpdate t status result error now).status = status ∧
    (applyUpdate t status result error now).startedAt =
      (if status = .running ∧ t.startedAt = none then some now else t.startedAt) ∧
    (applyUpdate t status result error now).completedAt =
      (if status.isTerminal then some now else t.completedAt) ∧
    (applyUpdate t status result error now).result =
      (match result with | some r => some r | none => t.result) ∧
    (applyUpdate t status result error now).error =
      (match error with | some e => some e | none => t.error) := by
  cases status <;> cases result <;> cases error <;>
    by_cases h1 : t.startedAt = none <;>
      simp [applyUpdate, TaskStatus.isTerminal, h1]

/-! ## Claims about the task manager -/

/-- C3 counterexample construction: a task is created, driven to the
terminal status completed, and then moved back to running by a further
`updateStatus` call. -/
def c3Options : TaskCreateOptions := ⟨.chat, ⟨"hello", none⟩, none, none⟩

def c3m1 : TaskManager :=
  match TaskManager.empty.create c3Options 0 with
  | .ok x => x.2
  | .error _ => TaskManager.empty

def c3m2 : TaskManager := (c3m1.updateStatus 1 .completed none none 5).2

def c3m3 : TaskManager := (c3m2.updateStatus 1 .running none none 9).2

/-- C3 (counterexample): after `create` and `updateStatus completed`, the
task is terminal, yet one more `updateStatus` moves it back to running and
mutates the record — the store does not enforce forward-only transitions. -/
theorem claim3_counterexample :
    ((c3m2.get 1).map Task.status = some .completed) ∧
    TaskStatus.isTerminal .completed = true ∧
    ((c3m3.get 1).map Task.status = some .running) ∧
    c3m3.get 1 ≠ c3m2.get 1 := by decide

/-- C3 (amended): `cancel` succeeds exactly on stored pending tasks, moves
exactly those to cancelled with a completion stamp, and mutates nothing
otherwise; `updateStatus`, however, overwrites the status of any stored task
unconditionally, so the store itself does not enforce forward-only movement
or the immutability of terminal records. -/
theorem claim3_status_transitions (m : TaskManager) (id : Nat) (now now' : Nat)
    (status : TaskStatus) :
    ((m.cancel id now).1 = true ↔ ∃ t, m.get id = some t ∧ t.status = .pending) ∧
    ((m.cancel id now).1 = false → (m.cancel id now).2 = m) ∧
    (∀ t, m.get id = some t → t.status = .pending →
      (m.cancel id now).2.get id =
        some { t with status := .cancelled, completedAt := some now }) ∧
    (∀ t, m.get id = some t →
      ((m.updateStatus id status none none now').2.get id).map Task.status = some status) := by
  refine ⟨?_, ?_, ?_, ?_⟩
  · constructor
    · intro h
      cases hl : lookupKV m.tasks id with
      | none => simp [TaskManager.cancel, hl] at h
      | some t =>
        by_cases hp : t.status = .pending
        · exact ⟨t, hl, hp⟩
        · simp [TaskManager.cancel, hl, hp] at h
    · rintro ⟨t, hget, hp⟩
      simp [TaskManager.cancel, TaskManager.get] at hget ⊢
      simp [hget, hp]
  · intro h
    cases hl : lookupKV m.tasks id with
    | none => simp [TaskManager.cancel, hl]
    | some t =>
      by_cases hp : t.status = .pending
      · simp [TaskManager.cancel, hl, hp] at h
      · simp [TaskManager.cancel, hl, hp]
  · intro t hget hp
    have hl : lookupKV m.tasks id = some t := hget
    simp only [TaskManager.cancel, hl, hp, ne_eq, not_true_eq_false, ite_false]
    exact lookupKV_setKV_found m.tasks id t _ hl
  · intro t hget
    have hl : lookupKV m.tasks id = some t := hget
    simp only [TaskManager.updateStatus, hl, TaskManager.get]
    rw [lookupKV_setKV_found m.tasks id t _ hl]
    simp [(applyUpdate_fields t status none none now').1]

/-- Iterated `create` calls, each keeping the previous state when the call
throws (the thrown error leaves the manager untouched). -/
def TaskManager.runCreates (m : TaskManager) : List (TaskCreateOptions × Nat) → TaskManager
  | [] => m
  | c :: rest =>
    match m.create c.1 c.2 with
    | .ok x => TaskManager.runCreates x.2 rest
    | .error _ => TaskManager.runCreates m rest

theorem runCreates_append (m : TaskManager) (l₁ l₂ : List (TaskCreateOptions × Nat)) :
    m.runCreates (l₁ ++ l₂) = (m.runCreates l₁).runCreates l₂ := by
  induction l₁ generalizing m with
  | nil => simp [TaskManager.runCreates]
  | cons c rest ih =>
    simp only [List.cons_append, TaskManager.runCreates]
    cases m.create c.1 c.2 with
    | ok x => exact ih x.2
    | error e => exact ih m

theorem runCreates_length (ops : List (TaskCreateOptions × Nat)) :
    ∀ m : TaskManager, m.tasks.length ≤ MAX_TASKS →
      (m.runCreates ops).tasks.length = min (m.tasks.length + ops.length) MAX_TASKS := by
  induction ops with
  | nil =>
    intro m hm
    simp [TaskManager.runCreates, Nat.min_eq_left hm]
  | cons c rest ih =>
    intro m hm
    by_cases hlt : m.tasks.length < MAX_TASKS
    · have hcreate : m.create c.1 c.2 = .ok
        (⟨m.taskCounter + 1, c.1.type, .pending, c.1.input, none, none, c.2, none, none,
          c.1.sessionId, c.1.priority.getD 0⟩,
          { tasks := m.tasks ++
              [(m.taskCounter + 1,
                ⟨m.taskCounter + 1, c.1.type, .pending, c.1.input, none, none, c.2, none, none,
                  c.1.sessionId, c.1.priority.getD 0⟩)],
            taskCounter := m.taskCounter + 1 }) := by
        simp [TaskManager.create, Nat.not_le_of_lt hlt]
      simp only [TaskManager.runCreates, hcreate]
      rw [ih _ (by simp; omega)]
      simp
      omega
    · have hge : m.tasks.length ≥ MAX_TASKS := Nat.le_of_not_lt hlt
      have heq : m.tasks.length = MAX_TASKS := Nat.le_antisymm hm hge
      have hcreate : m.create c.1 c.2 = .error capacityMsg := by
        simp [TaskManager.create, hge]
      simp only [TaskManager.runCreates, hcreate]
      rw [ih m hm]
      omega

/-- C4: at the ceiling, `create` throws the capacity error and stores
nothing; in particular, from the empty store any sequence of one thousand
create calls leaves the store at the ceiling and the next call fails,
changing nothing. -/
theorem claim4_capacity (m : TaskManager) (options : TaskCreateOptions) (now : Nat)
    (h : m.tasks.length = MAX_TASKS) :
    m.create options now = .error capacityMsg ∧
    ∀ ops : List (TaskCreateOptions × Nat), ops.length = MAX_TASKS →
      (TaskManager.empty.runCreates ops).tasks.length = MAX_TASKS ∧
      TaskManager.empty.runCreates (ops ++ [(options, now)]) =
        TaskManager.empty.runCreates ops := by
  constructor
  · simp [TaskManager.create, h]
  · intro ops hops
    have hlen : (TaskManager.empty.runCreates ops).tasks.length = MAX_TASKS := by
      rw [runCreates_length ops TaskManager.empty (by simp [TaskManager.empty])]
      simp [TaskManager.empty, hops]
    refine ⟨hlen, ?_⟩
    rw [runCreates_append]
    simp only [TaskManager.runCreates]
    have hcreate : (TaskManager.empty.runCreates ops).create options now = .error capacityMsg := by
      simp [TaskManager.create, hlen]
    rw [hcreate]

/-- A full store for the C4 witness: one thousand entries. -/
def c4FullStore : TaskManager :=
  ⟨(List.range MAX_TASKS).map
      (fun i => (i + 1, ⟨i + 1, .chat, .pending, ⟨"m", none⟩, none, none, 0, none, none, none, 0⟩)),
    MAX_TASKS⟩

def c4Options : TaskCreateOptions := ⟨.chat, ⟨"one more", none⟩, none, none⟩

theorem claim4_witness :
    c4FullStore.tasks.length = MAX_TASKS ∧
    c4FullStore.create c4Options 0 = .error capacityMsg :=
  ⟨by simp [c4FullStore], (claim4_capacity c4FullStore c4Options 0 (by simp [c4FullStore])).1⟩

/-- C5 counterexample construction: a task is created, completed (stamping
`completedAt`), and moved back to running; the stamp survives, so the sweep
removes a running task. -/
def c5Options : TaskCreateOptions := ⟨.chat, ⟨"job", none⟩, none, none⟩

def c5m1 : TaskManager :=
  match TaskManager.empty.create c5Options 0 with
  | .ok x => x.2
  | .error _ => TaskManager.empty

def c5m2 : TaskManager := (c5m1.updateStatus 1 .completed none none 5).2

def c5m3 : TaskManager := (c5m2.updateStatus 1 .running none none 6).2

/-- C5 (counterexample): in the reachable state `c5m3` the stored task is
running, yet `cleanup 0` at a later time removes it — `cleanup` consults
only the `completedAt` stamp, never the status. -/
theorem claim5_counterexample :
    ((c5m3.get 1).map Task.status = some .running) ∧
    (c5m3.cleanup 0 100).2.get 1 = none ∧
    (c5m3.cleanup 0 100).1 = 1 := by decide

/-- C5 (amended): `cleanup maxAge` removes exactly the stored tasks whose
`completedAt` stamp is set and older than `maxAge`, regardless of status; a
task with no stamp — in particular one that has only ever been pending or
running — is never removed. -/
theorem claim5_cleanup (m : TaskManager) (maxAge now : Nat) (hwf : m.WFKeys) :
    (∀ id t, m.get id = some t →
      ((m.cleanup maxAge now).2.get id = some t ↔
        ¬ ∃ c, t.completedAt = some c ∧ now - c > maxAge) ∧
      ((m.cleanup maxAge now).2.get id = none ↔
        ∃ c, t.completedAt = some c ∧ now - c > maxAge)) ∧
    (∀ id t, m.get id = some t → t.completedAt = none →
      (m.cleanup maxAge now).2.get id = some t) ∧
    (∀ id, m.get id = none → (m.cleanup maxAge now).2.get id = none) := by
  have hmain : ∀ id t, m.get id = some t →
      (m.cleanup maxAge now).2.get id =
        (if cleanupExpired maxAge now t then none else some t) := by
    intro id t hget
    have := lookupKV_filter_nodup m.tasks (fun p => ! cleanupExpired maxAge now p.2) id t hwf hget
    simp only [TaskManager.cleanup, TaskManager.get] at *
    rw [this]
    by_cases hc : cleanupExpired maxAge now t <;> simp [hc]
  have hiff : ∀ t : Task, cleanupExpired maxAge now t = true ↔
      ∃ c, t.completedAt = some c ∧ now - c > maxAge := by
    intro t
    cases hco : t.completedAt with
    | none => simp [cleanupExpired, hco]
    | some c => simp [cleanupExpired, hco]
  refine ⟨?_, ?_, ?_⟩
  · intro id t hget
    rw [hmain id t hget]
    by_cases hc : cleanupExpired maxAge now t
    · simp [hc, (hiff t).mp hc]
    · have : ¬ ∃ c, t.completedAt = some c ∧ now - c > maxAge := fun hx => hc ((hiff t).mpr hx)
      simp [hc, this]
  · intro id t hget hco
    rw [hmain id t hget]
    simp [cleanupExpired, hco]
  · intro id hget
    simp only [TaskManager.cleanup, TaskManager.get] at *
    exact lookupKV_filter_none _ _ _ hget

/-- A small store for the C5 witness: one pending task with no completion
stamp, which `cleanup 0` keeps. -/
def c5WitnessStore : TaskManager :=
  ⟨[(1, ⟨1, .chat, .pending, ⟨"w", none⟩, none, none, 0, none, none, none, 0⟩)], 1⟩

theorem claim5_witness :
    (c5WitnessStore.cleanup 0 100).2.get 1 =
      some ⟨1, .chat, .pending, ⟨"w", none⟩, none, none, 0, none, none, none, 0⟩ :=
  (claim5_cleanup c5WitnessStore 0 100 (by simp [TaskManager.WFKeys, c5WitnessStore])).2.1 1
    ⟨1, .chat, .pending, ⟨"w", none⟩, none, none, 0, none, none, none, 0⟩ (by decide) (by decide)

theorem taskLE_trans (a b c : Task) : taskLE a b → taskLE b c → taskLE a c := by
  simp only [taskLE, Bool.or_eq_true, Bool.and_eq_true, decide_eq_true_eq]
  omega

theorem taskLE_total (a b : Task) : taskLE a b || taskLE b a := by
  simp only [taskLE, Bool.or_eq_true, Bool.and_eq_true, decide_eq_true_eq]
  omega

/-- The single AND-semantics match predicate `list` implements by its two
successive filters. -/
def matchesFilter (f : TaskFilter) (t : Task) : Bool :=
  (match f.sessionId with
    | some sid => decide (t.sessionId = some sid)
    | none => true) &&
  match f.status with
    | some st => decide (t.status = st)
    | none => true

/-- C6: `list` returns exactly the tasks matching the filter (as a
permutation of the filtered snapshot), ordered by priority descending with
creation time ascending on ties, and `getNextPending` is precisely the head
of the pending list — a pure read that cannot mark anything running. -/
theorem claim6_list_order (m : TaskManager) (f : TaskFilter) :
    List.Perm (m.list f) ((m.tasks.map Prod.snd).filter (fun t => matchesFilter f t)) ∧
    (m.list f).Pairwise
      (fun a b => b.priority < a.priority ∨
        (a.priority = b.priority ∧ a.createdAt ≤ b.createdAt)) ∧
    m.getNextPending = (m.list ⟨some .pending, none⟩).head? := by
  refine ⟨?_, ?_, rfl⟩
  · obtain ⟨fs, fsid⟩ := f
    cases fs <;> cases fsid <;>
      · simp only [TaskManager.list]
        refine (List.mergeSort_perm _ taskLE).trans (List.Perm.of_eq ?_)
        simp [matchesFilter, List.filter_filter, Bool.true_and, Bool.and_true]
  · obtain ⟨fs, fsid⟩ := f
    cases fs <;> cases fsid <;>
      · simp only [TaskManager.list]
        refine (List.sorted_mergeSort taskLE_trans taskLE_total _).imp ?_
        intro a b hab
        simpa [taskLE, Bool.or_eq_true, Bool.and_eq_true, decide_eq_true_eq] using hab

/-- C7: the cancel tool handler distinguishes three outcomes: an unknown id
gives the not-found error without mutation, a stored non-pending task gives
the rejected error without mutation, and a stored pending task is cancelled
with a success response and a completion stamp; the not-found and rejected
responses can never coincide. -/
theorem claim7_cancel_handler (m : TaskManager) (id : Nat) (now : Nat) :
    (m.get id = none →
      handleOpenclawTaskCancel m id now =
        (errorResponse ("Task not found: " ++ idString id), m)) ∧
    (∀ t, m.get id = some t → t.status ≠ .pending →
      handleOpenclawTaskCancel m id now =
        (errorResponse ("Cannot cancel task with status: " ++ statusText t.status ++
          ". Only pending tasks can be cancelled."), m)) ∧
    (∀ t, m.get id = some t → t.status = .pending →
      (handleOpenclawTaskCancel m id now).1 = successResponse (cancelSuccessText id) ∧
      (handleOpenclawTaskCancel m id now).1.isError = none ∧
      (handleOpenclawTaskCancel m id now).2.get id =
        some { t with status := .cancelled, completedAt := some now }) ∧
    (∀ id' st, errorResponse ("Task not found: " ++ idString id') ≠
      errorResponse ("Cannot cancel task with status: " ++ statusText st ++
        ". Only pending tasks can be cancelled.")) := by
  refine ⟨?_, ?_, ?_, ?_⟩
  · intro hget
    simp [handleOpenclawTaskCancel, hget]
  · intro t hget hp
    simp [handleOpenclawTaskCancel, hget, hp]
  · intro t hget hp
    have hl : lookupKV m.tasks id = some t := hget
    have hcan : m.cancel id now =
        (true,
          { m with
              tasks := setKV m.tasks id { t with status := .cancelled, completedAt := some now } }) := by
      simp [TaskManager.cancel, hl, hp]
    refine ⟨?_, ?_, ?_⟩ <;>
      simp only [handleOpenclawTaskCancel, hget, hp, ne_eq, not_true_eq_false, ite_false, hcan]
    · simp [successResponse]
    · exact lookupKV_setKV_found m.tasks id t _ hl
  · intro id' st h
    simp only [errorResponse, ToolResponse.mk.injEq, List.cons.injEq, TextContent.mk.injEq,
      true_and, and_true] at h
    have h2 := congrArg String.data h
    simp only [String.data_append] at h2
    simp [String.data] at h2

/-- C8: `updateStatus` reports not-found without mutation for an unknown id;
for a stored task it overwrites the status, sets `startedAt` only on the
first transition to running (an existing stamp is never overwritten, and a
non-running status never touches it), stamps `completedAt` on every entry to
a terminal status, and stores `result` and `error` verbatim exactly when
provided, leaving the other field unchanged. -/
theorem claim8_updateStatus (m : TaskManager) (id : Nat) (status : TaskStatus)
    (result error : Option String) (now : Nat) :
    (m.get id = none → m.updateStatus id status result error now = (false, m)) ∧
    (∀ t, m.get id = some t →
      (m.updateStatus id status result error now).1 = true ∧
      (m.updateStatus id status result error now).2.get id =
        some (applyUpdate t status result error now) ∧
      (applyUpdate t status result error now).status = status ∧
      (status = .running → t.startedAt = none →
        (applyUpdate t status result error now).startedAt = some now) ∧
      (∀ s0, t.startedAt = some s0 →
        (applyUpdate t status result error now).startedAt = some s0) ∧
      (status ≠ .running → (applyUpdate t status result error now).startedAt = t.startedAt) ∧
      (status.isTerminal = true →
        (applyUpdate t status result error now).completedAt = some now) ∧
      (∀ r, result = some r → (applyUpdate t status result error now).result = some r) ∧
      (result = none → (applyUpdate t status result error now).result = t.result) ∧
      (∀ e, error = some e → (applyUpdate t status result error now).error = some e) ∧
      (error = none → (applyUpdate t status result error now).error = t.error)) := by
  constructor
  · intro hget
    simp [TaskManager.updateStatus, show lookupKV m.tasks id = none from hget]
  · intro t hget
    have hl : lookupKV m.tasks id = some t := hget
    obtain ⟨hstat, hstart, hcomp, hres, herr⟩ := applyUpdate_fields t status result error now
    refine ⟨?_, ?_, hstat, ?_, ?_, ?_, ?_, ?_, ?_, ?_, ?_⟩
    · simp [TaskManager.updateStatus, hl]
    · simp only [TaskManager.updateStatus, hl, TaskManager.get]
      exact lookupKV_setKV_found m.tasks id t _ hl
    · intro hrun hs0
      rw [hstart, if_pos ⟨hrun, hs0⟩]
    · intro s0 hs0
      rw [hstart, if_neg (by simp [hs0]), hs0]
    · intro hrun
      rw [hstart, if_neg (by simp [hrun])]
    · intro hterm
      rw [hcomp, if_pos hterm]
    · intro r hr
      rw [hres, hr]
    · intro hr
      rw [hres, hr]
    · intro e he
      rw [herr, he]
    · intro he
      rw [herr, he]

theorem updateStatus_get_found (m : TaskManager) (id : Nat) (t : Task) (st : TaskStatus)
    (r e : Option String) (now : Nat) (h : lookupKV m.tasks id = some t) :
    (m.updateStatus id st r e now).2.get id = some (applyUpdate t st r e now) := by
  simp only [TaskManager.updateStatus, h, TaskManager.get]
  exact lookupKV_setKV_found m.tasks id t _ h

/-- C9: the per-task dispatch is total — it always terminates the task in
completed or failed, never cancelled, never by escaping: an unknown kind is
failed with the descriptive message, a gateway exception is caught and
recorded as the failure message, and a gateway success completes the task
with the response. -/
theorem claim9_processTask (chat : String → Option String → Except String String)
    (task : Task) (m : TaskManager) (now : Nat) (t0 : Task)
    (h : m.get task.id = some t0) :
    (task.type = .custom →
      ((processTask chat task m now).get task.id).map Task.status = some .failed ∧
      ((processTask chat task m now).get task.id).bind Task.error =
        some ("Unknown task type")) ∧
    (∀ msg, task.type = .chat →
      chat task.input.message task.input.sessionId = .error msg →
      ((processTask chat task m now).get task.id).map Task.status = some .failed ∧
      ((processTask chat task m now).get task.id).bind Task.error = some msg) ∧
    (∀ response, task.type = .chat →
      chat task.input.message task.input.sessionId = .ok response →
      ((processTask chat task m now).get task.id).map Task.status = some .completed ∧
      ((processTask chat task m now).get task.id).bind Task.result = some response) ∧
    (∃ u, (processTask chat task m now).get task.id = some u ∧
      u.status.isTerminal = true ∧ u.status ≠ .cancelled) := by
  have hl : lookupKV m.tasks task.id = some t0 := h
  have hm1 := updateStatus_get_found m task.id t0 .running none none now hl
  have hm1' : lookupKV (m.updateStatus task.id .running none none now).2.tasks task.id =
      some (applyUpdate t0 .running none none now) := hm1
  refine ⟨?_, ?_, ?_, ?_⟩
  · intro hty
    have hproc : processTask chat task m now =
        ((m.updateStatus task.id .running none none now).2.updateStatus task.id .failed none
          (some ("Unknown task type")) now).2 := by
      simp [processTask, hty]
    have hm2 := updateStatus_get_found (m.updateStatus task.id .running none none now).2
      task.id (applyUpdate t0 .running none none now) .failed none
      (some ("Unknown task type")) now hm1'
    obtain ⟨hstat, _, _, _, herr⟩ := applyUpdate_fields
      (applyUpdate t0 .running none none now) .failed none (some ("Unknown task type")) now
    rw [hproc, hm2]
    simp [hstat, herr]
  · intro msg hty hchat
    have hproc : processTask chat task m now =
        ((m.updateStatus task.id .running none none now).2.updateStatus task.id .failed none
          (some msg) now).2 := by
      simp [processTask, hty, hchat]
    have hm2 := updateStatus_get_found (m.updateStatus task.id .running none none now).2
      task.id (applyUpdate t0 .running none none now) .failed none (some msg) now hm1'
    obtain ⟨hstat, _, _, _, herr⟩ := applyUpdate_fields
      (applyUpdate t0 .running none none now) .failed none (some msg) now
    rw [hproc, hm2]
    simp [hstat, herr]
  · intro response hty hchat
    have hproc : processTask chat task m now =
        ((m.updateStatus task.id .running none none now).2.updateStatus task.id .completed
          (some response) none now).2 := by
      simp [processTask, hty, hchat]
    have hm2 := updateStatus_get_found (m.updateStatus task.id .running none none now).2
      task.id (applyUpdate t0 .running none none now) .completed (some response) none now hm1'
    obtain ⟨hstat, _, _, hres, _⟩ := applyUpdate_fields
      (applyUpdate t0 .running none none now) .completed (some response) none now
    rw [hproc, hm2]
    simp [hstat, hres]
  · cases hty : task.type with
    | custom =>
      have hproc : processTask chat task m now =
          ((m.updateStatus task.id .running none none now).2.updateStatus task.id .failed none
            (some ("Unknown task type")) now).2 := by
        simp [processTask, hty]
      have hm2 := updateStatus_get_found (m.updateStatus task.id .running none none now).2
        task.id (applyUpdate t0 .running none none now) .failed none
        (some ("Unknown task type")) now hm1'
      obtain ⟨hstat, _, _, _, _⟩ := applyUpdate_fields
        (applyUpdate t0 .running none none now) .failed none (some ("Unknown task type")) now
      refine ⟨_, by rw [hproc]; exact hm2, ?_, ?_⟩ <;> simp [hstat, TaskStatus.isTerminal]
    | chat =>
      cases hchat : chat task.input.message task.input.sessionId with
      | ok response =>
        have hproc : processTask chat task m now =
            ((m.updateStatus task.id .running none none now).2.updateStatus task.id .completed
              (some response) none now).2 := by
          simp [processTask, hty, hchat]
        have hm2 := updateStatus_get_found (m.updateStatus task.id .running none none now).2
          task.id (applyUpdate t0 .running none none now) .completed (some response) none now hm1'
        obtain ⟨hstat, _, _, _, _⟩ := applyUpdate_fields
          (applyUpdate t0 .running none none now) .completed (some response) none now
        refine ⟨_, by rw [hproc]; exact hm2, ?_, ?_⟩ <;> simp [hstat, TaskStatus.isTerminal]
      | error msg =>
        have hproc : processTask chat task m now =
            ((m.updateStatus task.id .running none none now).2.updateStatus task.id .failed none
              (some msg) now).2 := by
          simp [processTask, hty, hchat]
        have hm2 := updateStatus_get_found (m.updateStatus task.id .running none none now).2
          task.id (applyUpdate t0 .running none none now) .failed none (some msg) now hm1'
        obtain ⟨hstat, _, _, _, _⟩ := applyUpdate_fields
          (applyUpdate t0 .running none none now) .failed none (some msg) now
        refine ⟨_, by rw [hproc]; exact hm2, ?_, ?_⟩ <;> simp [hstat, TaskStatus.isTerminal]

def c9Task : Task := ⟨1, .chat, .pending, ⟨"hi", none⟩, none, none, 0, none, none, none, 0⟩

def c9Store : TaskManager := ⟨[(1, c9Task)], 1⟩

def c9Chat : String → Option String → Except String String := fun _ _ => .ok ("resp")

theorem claim9_witness :
    ((processTask c9Chat c9Task c9Store 7).get 1).map Task.status = some .completed ∧
    ((processTask c9Chat c9Task c9Store 7).get 1).bind Task.result = some ("resp") :=
  (claim9_processTask c9Chat c9Task c9Store 7 c9Task (by decide)).2.2.1 ("resp") rfl rfl

/-- C10: with authentication disabled the legacy validator accepts every
token without any check, and with authentication enabled it accepts any
token found in the static API key list — in both cases the result is a
fixed value for every possible introspection behaviour, so the
introspection endpoint is never consulted. -/
theorem claim10_validateToken (config : OAuthConfig)
    (introspectToken : String → Except String TokenInfo) (token : String) (nowSec : Nat) :
    (config.enabled = false →
      OAuthValidator.validateToken config introspectToken token nowSec = ⟨true, none, none⟩) ∧
    (config.enabled = true → (config.apiKeys.getD []).contains token = true →
      OAuthValidator.validateToken config introspectToken token nowSec =
        ⟨true, some ⟨true, some ("api-key-user"), some ("full"), none, none⟩, none⟩) := by
  constructor
  · intro hoff
    simp [OAuthValidator.validateToken, hoff]
  · intro hon hk
    have hk' : token ∈ config.apiKeys.getD [] := by simpa using hk
    simp [OAuthValidator.validateToken, hon, hk']

/-- C1: an authorization code is single use. Once an exchange has looked the
code up — a successful exchange, or one that failed with the distinct
wrong-client error — the code is deleted, and every later exchange of the
same code, by any client, at any time, after any further sequence of
provider operations, fails with invalid grant and leaves the state
unchanged. -/
theorem claim1_code_single_use (s : ProviderState) (client : String) (code : Nat) (now : Nat)
    (hb : s.BoundedNonce)
    (hfirst : (∃ toks, (s.exchangeAuthorizationCode client code now).1 = .ok toks) ∨
      ∃ msg, (s.exchangeAuthorizationCode client code now).1 = .error (.wrongClient msg)) :
    ∀ (ops : List ProviderOp) (client' : String) (now' : Nat),
      ((s.exchangeAuthorizationCode client code now).2.runOps ops).exchangeAuthorizationCode
          client' code now' =
        (.error (.invalidGrant ("Invalid authorization code")),
          (s.exchangeAuthorizationCode client code now).2.runOps ops) := by
  have hpost : ConsumedCode (s.exchangeAuthorizationCode client code now).2 code := by
    cases hlook : lookupKV s.codes code with
    | none =>
      exfalso
      rcases hfirst with ⟨toks, htok⟩ | ⟨msg, hmsg⟩
      · simp [ProviderState.exchangeAuthorizationCode, hlook] at htok
      · simp [ProviderState.exchangeAuthorizationCode, hlook] at hmsg
    | some r =>
      have hmem := lookupKV_mem s.codes code r hlook
      have hlt : code < s.nonce := hb.1 (code, r) hmem
      by_cases hexp : now - r.createdAt > CODE_TTL_MS
      · exfalso
        rcases hfirst with ⟨toks, htok⟩ | ⟨msg, hmsg⟩
        · simp [ProviderState.exchangeAuthorizationCode, hlook, hexp] at htok
        · simp [ProviderState.exchangeAuthorizationCode, hlook, hexp] at hmsg
      · simp only [ProviderState.exchangeAuthorizationCode, hlook]
        simp only [if_neg hexp]
        by_cases hcl : r.clientId ≠ client
        · simp only [if_pos hcl]
          exact ⟨lookupKV_eraseKV_self _ _, hlt⟩
        · simp only [if_neg hcl]
          exact ⟨lookupKV_eraseKV_self _ _, Nat.lt_add_right 2 hlt⟩
  intro ops client' now'
  have hc := consumedCode_runOps _ code ops hpost
  exact exchangeCode_consumed _ client' code now' hc.1

def c1State : ProviderState :=
  ⟨[(0, ⟨"test-client", "http://localhost/cb", "ch", ["mcp:tools"], none, 0⟩)], [], [], 1⟩

theorem claim1_witness :
    c1State.BoundedNonce ∧
    ((c1State.exchangeAuthorizationCode ("test-client") 0 5).2.runOps
          []).exchangeAuthorizationCode ("test-client") 0 9 =
      (.error (.invalidGrant ("Invalid authorization code")),
        (c1State.exchangeAuthorizationCode ("test-client") 0 5).2.runOps []) :=
  ⟨by simp [ProviderState.BoundedNonce, c1State],
    claim1_code_single_use c1State ("test-client") 0 5
      (by simp [ProviderState.BoundedNonce, c1State])
      (Or.inl ⟨⟨1, 2, "bearer", 3600, ["mcp:tools"]⟩, rfl⟩)
      [] ("test-client") 9⟩

/-- C2: refresh rotation. A successful refresh exchange deletes the
presented token and mints a brand-new access and refresh pair (both fresh:
neither existed before); the consumed token fails with invalid grant on
every later exchange after any further operation sequence, while the newly
issued refresh token is itself stored for the same client with a full
24-hour lifetime and can be exchanged successfully exactly once before
its expiry. -/
theorem claim2_refresh_rotation (s s' : ProviderState) (client : String) (token now : Nat)
    (toks : OAuthTokens) (hb : s.BoundedNonce)
    (hok : (s.exchangeRefreshToken client token now).1 = .ok toks)
    (hs' : s' = (s.exchangeRefreshToken client token now).2) :
    lookupKV s'.refreshTokens token = none ∧
    lookupKV s.refreshTokens toks.refreshToken = none ∧
    lookupKV s.accessTokens toks.accessToken = none ∧
    toks.refreshToken ≠ token ∧
    (∃ tr, lookupKV s'.refreshTokens toks.refreshToken = some tr ∧
      tr.clientId = client ∧ tr.expiresAt = now + REFRESH_TTL_MS) ∧
    (∀ ops client' now',
      (s'.runOps ops).exchangeRefreshToken client' token now' =
        (.error (.invalidGrant ("Invalid refresh token")), s'.runOps ops)) ∧
    (∀ now₂, now₂ < now + REFRESH_TTL_MS →
      ∃ toks₂, (s'.exchangeRefreshToken client toks.refreshToken now₂).1 = .ok toks₂ ∧
        ∀ client'' now₃,
          ((s'.exchangeRefreshToken client toks.refreshToken now₂).2).exchangeRefreshToken
              client'' toks.refreshToken now₃ =
            (.error (.invalidGrant ("Invalid refresh token")),
              (s'.exchangeRefreshToken client toks.refreshToken now₂).2)) := by
  cases hlook : lookupKV s.refreshTokens token with
  | none =>
    exfalso
    simp [ProviderState.exchangeRefreshToken, hlook] at hok
  | some r =>
    by_cases hexp : r.expiresAt ≤ now
    · exfalso
      simp [ProviderState.exchangeRefreshToken, hlook, hexp] at hok
    · by_cases hcl : r.clientId ≠ client
      · exfalso
        simp only [ProviderState.exchangeRefreshToken, hlook] at hok
        rw [if_neg hexp, if_pos hcl] at hok
        simp at hok
      · have hcli : r.clientId = client := not_not.mp hcl
        have hmem := lookupKV_mem s.refreshTokens token r hlook
        have htlt : token < s.nonce := hb.2.2 (token, r) hmem
        have htoks : toks = ⟨s.nonce, s.nonce + 1, "bearer", 3600, r.scopes⟩ := by
          simp only [ProviderState.exchangeRefreshToken, hlook] at hok
          rw [if_neg hexp, if_neg hcl] at hok
          simp only at hok
          exact (Except.ok.inj hok).symm
        have hs'eq : s' =
            { s with
                accessTokens := s.accessTokens ++
                  [(s.nonce, ⟨client, r.scopes, now + ACCESS_TTL_MS⟩)],
                refreshTokens := eraseKV s.refreshTokens token ++
                  [(s.nonce + 1, ⟨client, r.scopes, now + REFRESH_TTL_MS⟩)],
                nonce := s.nonce + 2 } := by
          rw [hs']
          simp only [ProviderState.exchangeRefreshToken, hlook]
          rw [if_neg hexp, if_neg hcl]
        subst htoks
        subst hs'eq
        have herase_none : lookupKV (eraseKV s.refreshTokens token) (s.nonce + 1) = none := by
          apply lookupKV_none_of_key_lt
          intro p hp
          exact Nat.lt_succ_of_lt (hb.2.2 p (List.mem_of_mem_filter hp))
        have hnew : lookupKV
            (eraseKV s.refreshTokens token ++
              [(s.nonce + 1, (⟨client, r.scopes, now + REFRESH_TTL_MS⟩ : TokenRecord))])
            (s.nonce + 1) = some ⟨client, r.scopes, now + REFRESH_TTL_MS⟩ := by
          rw [lookupKV_append, herase_none]
          simp [lookupKV]
        have hgone : lookupKV
            (eraseKV s.refreshTokens token ++
              [(s.nonce + 1, (⟨client, r.scopes, now + REFRESH_TTL_MS⟩ : TokenRecord))])
            token = none := by
          rw [lookupKV_append, lookupKV_eraseKV_self]
          simp only [lookupKV]
          rw [if_neg (by omega)]
        refine ⟨hgone, ?_, ?_, show s.nonce + 1 ≠ token by omega,
          ⟨⟨client, r.scopes, now + REFRESH_TTL_MS⟩, hnew, rfl, rfl⟩, ?_, ?_⟩
        · exact lookupKV_none_of_key_lt _ _ (fun p hp => Nat.lt_succ_of_lt (hb.2.2 p hp))
        · exact lookupKV_none_of_key_lt _ _ (fun p hp => hb.2.1 p hp)
        · intro ops client' now'
          have hcons : ConsumedRefresh
              { s with
                  accessTokens := s.accessTokens ++
                    [(s.nonce, ⟨client, r.scopes, now + ACCESS_TTL_MS⟩)],
                  refreshTokens := eraseKV s.refreshTokens token ++
                    [(s.nonce + 1, ⟨client, r.scopes, now + REFRESH_TTL_MS⟩)],
                  nonce := s.nonce + 2 } token := ⟨hgone, show token < s.nonce + 2 by omega⟩
          have hc := consumedRefresh_runOps _ token ops hcons
          exact exchangeRefresh_consumed _ client' token now' hc.1
        · intro now₂ hnow₂
          refine ⟨⟨s.nonce + 2, s.nonce + 3, "bearer", 3600, r.scopes⟩, ?_, ?_⟩
          · simp only [ProviderState.exchangeRefreshToken, hnew]
            rw [if_neg (by omega : ¬ now + REFRESH_TTL_MS ≤ now₂)]
            rw [if_neg (by simp : ¬ client ≠ client)]
          · intro client'' now₃
            apply exchangeRefresh_consumed
            simp only [ProviderState.exchangeRefreshToken, hnew]
            rw [if_neg (by omega : ¬ now + REFRESH_TTL_MS ≤ now₂)]
            rw [if_neg (by simp : ¬ client ≠ client)]
            rw [lookupKV_append, lookupKV_eraseKV_self]
            simp only [lookupKV]
            rw [if_neg (by omega)]

def c2State : ProviderState :=
  ⟨[], [], [(5, ⟨"test-client", ["mcp:tools"], 90000000⟩)], 6⟩

theorem claim2_witness :
    lookupKV (c2State.exchangeRefreshToken ("test-client") 5 10).2.refreshTokens 5 = none :=
  (claim2_refresh_rotation c2State (c2State.exchangeRefreshToken ("test-client") 5 10).2
      ("test-client") 5 10 ⟨6, 7, "bearer", 3600, ["mcp:tools"]⟩
      (by simp [ProviderState.BoundedNonce, c2State])
      rfl rfl).1

end OpenClaw
